import Mathlib

/-!
Verification of the client-side video editor pipeline of the `veo3`
repository (the `VideoEditor` component). Each source function is embedded
shallowly: canvas drawing becomes an explicit operation trace, the export
procedure (`processVideo`) becomes a pure function over an environment that
records the outcome of each browser interaction (fetch, media load,
playback, encoded chunks), and the React state handlers become pure state
transformers over rational-number time values.
-/

namespace Veo

/-! ## Frame compositor (`renderFrame`, VideoEditor lines 43-88)

Every call the function makes on the 2d context is recorded as one
operation, in source order. -/

inductive CanvasOp where
  | drawImage (w h : ℚ)
  | setFont (size : ℚ)
  | setTextAlign
  | setTextBaseline
  | setLineWidth (v : ℚ)
  | setStrokeStyle (c : String)
  | setLineJoin
  | setLineCap
  | setShadow (color : String) (blur offsetX offsetY : ℚ)
  | strokeText (text : String) (x y : ℚ)
  | clearShadow
  | setFillStyle (c : String)
  | fillText (text : String) (x y : ℚ)
  deriving DecidableEq, Repr

/-- `renderFrame(ctx, source, text, width, height)`: draws the scaled frame,
then — only when `text` is non-empty (JS truthiness of the string) — the
styled caption: stroke with shadow first, then shadow reset, then fill. -/
def renderFrame (text : String) (width height : ℚ) : List CanvasOp :=
  let base := [CanvasOp.drawImage width height]
  if text = "" then base
  else
    let fontSize := height * (8 / 100)
    let x := width / 2
    let y := height - height * (1 / 10)
    base ++
      [CanvasOp.setFont fontSize, CanvasOp.setTextAlign, CanvasOp.setTextBaseline,
       CanvasOp.setLineWidth (fontSize * (12 / 100)),
       CanvasOp.setStrokeStyle "rgba(0, 0, 0, 0.8)", CanvasOp.setLineJoin, CanvasOp.setLineCap,
       CanvasOp.setShadow "rgba(0,0,0,0.5)" (fontSize * (2 / 10)) (fontSize * (5 / 100))
         (fontSize * (5 / 100)),
       CanvasOp.strokeText text x y, CanvasOp.clearShadow,
       CanvasOp.setFillStyle "white", CanvasOp.fillText text x y]

/-! ## Encoder format selection (`getSupportedMimeType`, lines 19-32) -/

/-- The fixed preference list probed by `getSupportedMimeType`. -/
def mimeCandidates : List String :=
  ["video/webm;codecs=vp9", "video/webm;codecs=vp8", "video/webm", "video/mp4"]

/-- The `for`-loop of `getSupportedMimeType`: first candidate the platform
supports, empty string when none is. -/
def firstSupported (isTypeSupported : String → Bool) : List String → String
  | [] => ""
  | t :: rest => if isTypeSupported t then t else firstSupported isTypeSupported rest

/-- `getSupportedMimeType()`, parameterised by the platform capability
predicate `MediaRecorder.isTypeSupported`. -/
def getSupportedMimeType (isTypeSupported : String → Bool) : String :=
  firstSupported isTypeSupported mimeCandidates

/-! ## Sink finalization (`recorder.onstop` handler, lines 372-396)

A chunk is modelled by its byte size; `ondataavailable` only pushes chunks
of positive size, and the assembled blob's size is the sum of the chunk
sizes. -/

inductive FinishResult where
  | emptyOutput
  | outputTooSmall (size : ℕ)
  | saved (size : ℕ)
  deriving DecidableEq, Repr

/-- Size of the blob assembled from the accumulated chunks. -/
def blobSize (chunks : List ℕ) : ℕ := chunks.foldl (· + ·) 0

/-- The `recorder.onstop` handler: reject when no chunks were accumulated,
reject when the assembled blob is under 1000 bytes, otherwise hand the
blob's URL to the save callback. -/
def finishRecording (chunks : List ℕ) : FinishResult :=
  if chunks.length = 0 then FinishResult.emptyOutput
  else if blobSize chunks < 1000 then FinishResult.outputTooSmall (blobSize chunks)
  else FinishResult.saved (blobSize chunks)

/-! ## Segment player (`playSegment.onFrame`, lines 403-453)

One animation-frame tick observes a snapshot of the media element and
either resolves the promise or schedules another tick. -/

structure MediaSnapshot where
  currentTime : ℚ
  paused : Bool
  ended : Bool
  deriving DecidableEq, Repr

inductive FrameStep where
  | resolved
  | continueLoop
  deriving DecidableEq, Repr

/-- One `onFrame` tick: resolve when `currentTime >= end`; otherwise draw
the frame and re-schedule while playing; when paused/ended, re-schedule if
`currentTime < end` and resolve otherwise. -/
def onFrameStep (s : MediaSnapshot) (endTime : ℚ) : FrameStep :=
  if endTime ≤ s.currentTime then FrameStep.resolved
  else if !s.paused && !s.ended then FrameStep.continueLoop
  else if s.currentTime < endTime then FrameStep.continueLoop
  else FrameStep.resolved

/-- Runs `onFrame` over a finite list of successive snapshots of the media
element; `some k` means the promise resolved at tick `k`, `none` that the
loop was still polling after all observed ticks. -/
def playSegmentLoop (endTime : ℚ) : List MediaSnapshot → Option ℕ
  | [] => none
  | s :: rest =>
      match onFrameStep s endTime with
      | FrameStep.resolved => some 0
      | FrameStep.continueLoop => (playSegmentLoop endTime rest).map (· + 1)

/-! ## Trim controls (VideoEditor lines 645-720)

Editor state restricted to the trim-relevant fields; each control's
`onChange` handler becomes a state transformer. -/

structure EditorState where
  trimStart : ℚ
  trimEnd : ℚ
  duration : ℚ
  deriving DecidableEq, Repr

/-- The EditPlan trim invariant: `0 ≤ trimStart < trimEnd ≤ duration` with
gap at least `0.1`. -/
def trimInvariant (st : EditorState) : Prop :=
  0 ≤ st.trimStart ∧ st.trimStart + 1 / 10 ≤ st.trimEnd ∧ st.trimEnd ≤ st.duration

instance (st : EditorState) : Decidable (trimInvariant st) := by
  unfold trimInvariant; infer_instance

/-- The start number input: `val = min(input, trimEnd - 0.1)`, stored as
`max(0, val)`. -/
def trimStartNumberInput (st : EditorState) (input : ℚ) : EditorState :=
  { st with trimStart := max 0 (min input (st.trimEnd - 1 / 10)) }

/-- The end number input: `val = max(input, trimStart + 0.1)`, stored as
`min(duration, val)`. -/
def trimEndNumberInput (st : EditorState) (input : ℚ) : EditorState :=
  { st with trimEnd := min st.duration (max input (st.trimStart + 1 / 10)) }

/-- The length number input: `newEnd = trimStart + input`, stored only when
`newEnd ≤ duration`. -/
def trimLengthNumberInput (st : EditorState) (input : ℚ) : EditorState :=
  if st.trimStart + input ≤ st.duration then { st with trimEnd := st.trimStart + input } else st

/-- The trimStart range slider: stores the slider value with no clamping
(the slider itself constrains the value to `[0, duration]`, step `0.1`). -/
def trimStartSlider (st : EditorState) (val : ℚ) : EditorState :=
  { st with trimStart := val }

/-- The trimEnd range slider: stores `max(value, trimStart)`. -/
def trimEndSlider (st : EditorState) (val : ℚ) : EditorState :=
  { st with trimEnd := max val st.trimStart }

/-! ## Clip data model and merge-queue selector (lines 118-121, 243-251) -/

structure GeneratedVideo where
  id : String
  url : String
  prompt : String
  aspectRatio : String
  deriving DecidableEq, Repr

/-- `compatibleVideos`: history videos with a different id and the same
aspect ratio as the main video; these are exactly the selector's options. -/
def compatibleVideos (video : GeneratedVideo) (allVideos : List GeneratedVideo) :
    List GeneratedVideo :=
  allVideos.filter (fun v => v.id != video.id && v.aspectRatio == video.aspectRatio)

/-- `handleAddToQueue`: appends the selected id when it is non-empty (JS
truthiness) and resets the failed-indices set. -/
def handleAddToQueue (mergeQueue : List String) (failedQueueIndices : List ℕ)
    (selectedId : String) : List String × List ℕ :=
  if selectedId = "" then (mergeQueue, failedQueueIndices)
  else (mergeQueue ++ [selectedId], [])

/-! ## Export orchestration (`processVideo`, lines 273-555)

The procedure is embedded as a pure function over an `ExportEnv` that fixes
the outcome of every browser interaction: the even-forced canvas
dimensions, whether each merge clip's fetch succeeds, how the media element
reacts to loading each clip (`loadeddata` vs `error` event vs the 15s
timeout), whether each `playSegment` call completes, and the encoded
chunks the recorder accumulated.  The result records the orchestration
facts the claims are about: saved URLs, failed queue indices, played
segments, created/revoked blob URLs, audio-graph state and an event
trace. -/

inductive Ev where
  | drawInitialFrame
  | captureStream
  | recorderStart
  | mainSegPlayed
  | fetchBlob (i : ℕ)
  | mergeSegPlayed (i : ℕ)
  | recorderStop
  | saveInvoked
  deriving DecidableEq, Repr

structure SegPlay where
  src : String
  rangeStart : ℚ
  rangeEnd : ℚ
  text : String
  deriving DecidableEq, Repr

inductive LoadOutcome where
  | loaded
  | mediaError
  | timeout
  deriving DecidableEq, Repr

structure ExportEnv where
  videoWidth : ℕ
  videoHeight : ℕ
  fetchOk : String → Bool
  loadOutcome : String → LoadOutcome
  mainPlayOk : Bool
  mergePlayOk : String → Bool
  mergeDuration : String → ℚ
  chunks : List ℕ

inductive ExportStatus where
  | completed
  | failed (message : String)
  deriving DecidableEq, Repr

structure ExportResult where
  status : ExportStatus
  savedUrls : List String
  failedQueueIndices : List ℕ
  playedSegments : List SegPlay
  blobsCreated : List String
  blobsRevoked : List String
  audioCreated : Bool
  audioClosed : Bool
  sourceDisconnected : Bool
  events : List Ev
  processing : Bool
  deriving Repr

/-- `width % 2 === 0 ? width : width - 1` (lines 316-317). -/
def forceEven (w : ℕ) : ℕ := if w % 2 = 0 then w else w - 1

/-- The message thrown from the merge-loop catch for queue position `i`
(0-based in code, reported 1-based to the user, line 514). -/
def mergeFailMessage (i : ℕ) : String :=
  "Không thể tải video thứ " ++ toString (i + 1) ++
    " trong hàng đợi. Vui lòng kiểm tra hoặc xóa video này."

/-- Accumulator threaded through the merge-queue loop: created blob URLs
(`tempMergeBlobs`), segments handed to `playSegment`, and the event
trace. -/
structure LoopAcc where
  blobs : List String
  played : List SegPlay
  events : List Ev
  deriving Repr

inductive LoopOut where
  | ok (acc : LoopAcc)
  | err (acc : LoopAcc) (failedIdx : ℕ) (message : String)
  deriving Repr

/-- The merge-queue `for` loop (lines 463-517).  An id absent from
`allVideos` is skipped (the `if (mergeVideoData)` guard).  A failed fetch
creates no blob URL; a media-element error or the load timeout fail after
the blob was created; a successful load plays the full clip with empty
caption.  Any failure inside the `try` marks the current index and aborts
the loop (the catch re-throws). -/
def mergeLoop (allVideos : List GeneratedVideo) (env : ExportEnv) :
    ℕ → List String → LoopAcc → LoopOut
  | _, [], acc => LoopOut.ok acc
  | i, id :: rest, acc =>
      match allVideos.find? (fun w => w.id == id) with
      | none => mergeLoop allVideos env (i + 1) rest acc
      | some v =>
          if env.fetchOk v.url then
            let acc1 : LoopAcc :=
              { acc with blobs := acc.blobs ++ ["blob:" ++ v.url],
                         events := acc.events ++ [Ev.fetchBlob i] }
            match env.loadOutcome id with
            | LoadOutcome.loaded =>
                if env.mergePlayOk id then
                  let acc2 : LoopAcc :=
                    { acc1 with
                      played := acc1.played ++ [⟨"blob:" ++ v.url, 0, env.mergeDuration id, ""⟩],
                      events := acc1.events ++ [Ev.mergeSegPlayed i] }
                  mergeLoop allVideos env (i + 1) rest acc2
                else LoopOut.err acc1 i (mergeFailMessage i)
            | LoadOutcome.mediaError => LoopOut.err acc1 i (mergeFailMessage i)
            | LoadOutcome.timeout => LoopOut.err acc1 i (mergeFailMessage i)
          else LoopOut.err acc i (mergeFailMessage i)

/-- The `catch` block (lines 542-554): processing flag cleared, error
message shown, audio context closed, every `tempMergeBlobs` entry revoked;
the source node is not disconnected on this path and `onSave` is never
called. -/
def errorResult (message : String) (failedIdx : List ℕ) (acc : LoopAcc)
    (audioCreated : Bool) : ExportResult :=
  { status := ExportStatus.failed message, savedUrls := [],
    failedQueueIndices := failedIdx, playedSegments := acc.played,
    blobsCreated := acc.blobs, blobsRevoked := acc.blobs,
    audioCreated := audioCreated, audioClosed := audioCreated,
    sourceDisconnected := false, events := acc.events, processing := false }

/-- `processVideo` (lines 273-555): guard on the local source, audio-context
creation, canvas sizing with even-forcing, one initial frame drawn, canvas
capture, recorder start, the trimmed main segment, the merge-queue loop,
the settle delay plus `recorder.stop` and the `onstop` finalization, and
the success/error cleanup paths. -/
def processVideo (allVideos : List GeneratedVideo) (localVideoSrc : Option String)
    (trimStart trimEnd : ℚ) (textOverlay : String) (mergeQueue : List String)
    (env : ExportEnv) : ExportResult :=
  match localVideoSrc with
  | none =>
      { status := ExportStatus.failed "Video nguồn chưa sẵn sàng.", savedUrls := [],
        failedQueueIndices := [], playedSegments := [], blobsCreated := [],
        blobsRevoked := [], audioCreated := false, audioClosed := false,
        sourceDisconnected := false, events := [], processing := false }
  | some src =>
      let width := forceEven env.videoWidth
      let height := forceEven env.videoHeight
      if width = 0 ∨ height = 0 then
        errorResult "Invalid video dimensions. Wait for video to load." [] ⟨[], [], []⟩ true
      else
        if env.mainPlayOk then
          let acc1 : LoopAcc :=
            ⟨[], [⟨src, trimStart, trimEnd, textOverlay⟩],
             [Ev.drawInitialFrame, Ev.captureStream, Ev.recorderStart, Ev.mainSegPlayed]⟩
          match mergeLoop allVideos env 0 mergeQueue acc1 with
          | LoopOut.err acc2 i message => errorResult message [i] acc2 true
          | LoopOut.ok acc2 =>
              match finishRecording env.chunks with
              | FinishResult.emptyOutput =>
                  errorResult "No video data recorded. The stream was empty." [] acc2 true
              | FinishResult.outputTooSmall _ =>
                  errorResult "Generated video file is too small/empty." [] acc2 true
              | FinishResult.saved _ =>
                  { status := ExportStatus.completed, savedUrls := ["blob:output"],
                    failedQueueIndices := [], playedSegments := acc2.played,
                    blobsCreated := acc2.blobs, blobsRevoked := acc2.blobs,
                    audioCreated := true, audioClosed := true,
                    sourceDisconnected := true,
                    events := acc2.events ++ [Ev.recorderStop, Ev.saveInvoked],
                    processing := false }
        else
          errorResult "Main segment playback failed." []
            ⟨[], [], [Ev.drawInitialFrame, Ev.captureStream, Ev.recorderStart]⟩ true

/-- Entry `id` of the merge queue passes without failure: whenever it
resolves in the live collection, its fetch, media load and playback all
succeed (vacuously true for an unresolved id, which the loop skips). -/
def entryPasses (allVideos : List GeneratedVideo) (env : ExportEnv) (id : String) : Prop :=
  ∀ v, allVideos.find? (fun w => w.id == id) = some v →
    env.fetchOk v.url = true ∧ env.loadOutcome id = LoadOutcome.loaded ∧
      env.mergePlayOk id = true

/-- Entry `id` resolves in the live collection but its load fails: the
fetch fails, or the media element fires `error`, or the 15s timeout
expires. -/
def entryLoadFails (allVideos : List GeneratedVideo) (env : ExportEnv) (id : String) : Prop :=
  ∃ v, allVideos.find? (fun w => w.id == id) = some v ∧
    (env.fetchOk v.url = false ∨ env.loadOutcome id = LoadOutcome.mediaError ∨
      env.loadOutcome id = LoadOutcome.timeout)

/-! ## Helper lemmas -/

theorem firstSupported_eq_find (f : String → Bool) (l : List String) :
    firstSupported f l = (l.find? f).getD "" := by
  induction l with
  | nil => rfl
  | cons t rest ih =>
      by_cases h : f t
      · simp [firstSupported, h, List.find?_cons_of_pos]
      · simp [firstSupported, h, List.find?_cons_of_neg, ih]

/-! ## Claim theorems -/

/-- C8: Encoder format selection is a deterministic function of the platform
capability set: `getSupportedMimeType` returns the first supported entry of
the fixed preference list (vp9, vp8, plain webm, mp4) and the empty string
(platform default) when none is supported, and two invocations under the
same capability predicate return the same type. -/
theorem mime_selection_first_supported (f g : String → Bool) :
    getSupportedMimeType f = (mimeCandidates.find? f).getD "" ∧
    (mimeCandidates.find? f = none → getSupportedMimeType f = "") ∧
    ((∀ t, f t = g t) → getSupportedMimeType f = getSupportedMimeType g) := by
  refine ⟨firstSupported_eq_find f mimeCandidates, ?_, ?_⟩
  · intro h
    rw [getSupportedMimeType, firstSupported_eq_find, h]
    rfl
  · intro h
    have hfg : f = g := funext h
    rw [hfg]

theorem mime_selection_first_supported_witness :
    getSupportedMimeType (fun _ => false) = "" ∧
    getSupportedMimeType (fun _ => true) = getSupportedMimeType (fun t => t == t) :=
  ⟨(mime_selection_first_supported (fun _ => false) (fun _ => false)).2.1 rfl,
   (mime_selection_first_supported (fun _ => true) (fun t => t == t)).2.2
     (fun t => by simp)⟩

/-- C9: compositing with empty overlay text leaves the frame pixel-identical
to the undecorated source frame: `renderFrame` with `text = ""` performs
exactly the scaled draw of the source and no stroke, shadow, or fill text
operation. -/
theorem renderFrame_empty_caption (w h : ℚ) :
    renderFrame "" w h = [CanvasOp.drawImage w h] ∧
    (∀ t x y, CanvasOp.strokeText t x y ∉ renderFrame "" w h) ∧
    (∀ t x y, CanvasOp.fillText t x y ∉ renderFrame "" w h) ∧
    (∀ c b ox oy, CanvasOp.setShadow c b ox oy ∉ renderFrame "" w h) := by
  refine ⟨by simp [renderFrame], ?_, ?_, ?_⟩
  · intro t x y
    simp [renderFrame]
  · intro t x y
    simp [renderFrame]
  · intro c b ox oy
    simp [renderFrame]

theorem renderFrame_empty_caption_witness :
    renderFrame "" 16 9 = [CanvasOp.drawImage 16 9] ∧
    CanvasOp.strokeText "HELLO" 8 (81 / 10) ∉ renderFrame "" 16 9 :=
  ⟨(renderFrame_empty_caption 16 9).1,
   (renderFrame_empty_caption 16 9).2.1 "HELLO" 8 (81 / 10)⟩

/-- C2: sink finalization fails rather than producing output exactly when
the pipeline produced nothing or implausibly little: `finishRecording`
yields the empty-output error iff zero chunks were accumulated, yields the
too-small error iff chunks exist but the assembled blob is under 1000
bytes, and otherwise assembles the chunks into one blob (of the summed
size) and delivers it to the save callback. -/
theorem finish_rejects_iff (chunks : List ℕ) :
    (finishRecording chunks = FinishResult.emptyOutput ↔ chunks = []) ∧
    (finishRecording chunks = FinishResult.outputTooSmall (blobSize chunks) ↔
      chunks ≠ [] ∧ blobSize chunks < 1000) ∧
    (finishRecording chunks = FinishResult.saved (blobSize chunks) ↔
      chunks ≠ [] ∧ 1000 ≤ blobSize chunks) := by
  by_cases h : chunks = []
  · subst h
    simp [finishRecording]
  · have h0 : ¬ chunks.length = 0 := by simpa [List.length_eq_zero] using h
    by_cases hs : blobSize chunks < 1000
    · simp [finishRecording, h0, hs, h]
    · simp [finishRecording, h0, hs, h, le_of_not_lt hs]

theorem finish_rejects_iff_witness :
    finishRecording [] = FinishResult.emptyOutput ∧
    finishRecording [500, 300] = FinishResult.outputTooSmall 800 ∧
    finishRecording [800, 400] = FinishResult.saved 1200 :=
  ⟨(finish_rejects_iff []).1.mpr rfl,
   (finish_rejects_iff [500, 300]).2.1.mpr (by decide),
   (finish_rejects_iff [800, 400]).2.2.mpr (by decide)⟩

/-- C4 counterexample: the claim says the play operation resolves as a
normal completion when playback naturally pauses/ends before `currentTime`
reaches `rangeEnd`; but on a snapshot that is paused and ended at time 5
with `rangeEnd = 6`, one `onFrame` tick schedules another tick instead of
resolving, and the loop is still polling after ten such ticks. -/
theorem pause_before_end_not_completion :
    (5 : ℚ) < 6 ∧
    onFrameStep ⟨5, true, true⟩ 6 = FrameStep.continueLoop ∧
    playSegmentLoop 6 (List.replicate 10 ⟨5, true, true⟩) = none := by
  decide

/-- C4 amended: the Segment Player's frame loop resolves exactly when the
media element's `currentTime` reaches `rangeEnd`; when playback pauses or
ends while `currentTime` is still below `rangeEnd`, the loop does not
resolve but keeps scheduling further polling frames. -/
theorem frame_loop_resolves_iff_end_reached (ss : List MediaSnapshot) (endTime : ℚ) :
    (∀ s : MediaSnapshot, onFrameStep s endTime = FrameStep.resolved ↔
      endTime ≤ s.currentTime) ∧
    ((playSegmentLoop endTime ss).isSome ↔ ∃ s ∈ ss, endTime ≤ s.currentTime) := by
  have hstep : ∀ s : MediaSnapshot,
      onFrameStep s endTime = FrameStep.resolved ↔ endTime ≤ s.currentTime := by
    intro s
    unfold onFrameStep
    by_cases h : endTime ≤ s.currentTime
    · simp [h]
    · have hlt : s.currentTime < endTime := lt_of_not_le h
      simp only [h, if_false, hlt, if_true]
      split <;> simp
  refine ⟨hstep, ?_⟩
  induction ss with
  | nil => simp [playSegmentLoop]
  | cons s rest ih =>
      by_cases h : endTime ≤ s.currentTime
      · simp [playSegmentLoop, (hstep s).mpr h, h]
      · have hc : onFrameStep s endTime = FrameStep.continueLoop := by
          cases hcase : onFrameStep s endTime
          · exact absurd ((hstep s).mp hcase) h
          · rfl
        simp [playSegmentLoop, hc, h, ih]

theorem frame_loop_resolves_iff_end_reached_witness :
    onFrameStep ⟨7, false, false⟩ 6 = FrameStep.resolved ∧
    (playSegmentLoop 6 [⟨5, false, false⟩, ⟨7, false, false⟩]).isSome :=
  ⟨(frame_loop_resolves_iff_end_reached [] 6).1 ⟨7, false, false⟩ |>.mpr (by norm_num),
   (frame_loop_resolves_iff_end_reached [⟨5, false, false⟩, ⟨7, false, false⟩] 6).2.mpr
     ⟨⟨7, false, false⟩, by simp, by norm_num⟩⟩

/-- C5 counterexample: the claim says every editor state reachable through
the trim controls satisfies `0 ≤ trimStart < trimEnd ≤ duration` with a gap
of at least 0.1; but from the valid state (trimStart 0, trimEnd 10,
duration 10), moving the trimStart range slider to 10 (a value the slider
permits, since its range is `[0, duration]`) yields trimStart = trimEnd =
10, violating the invariant. -/
theorem trim_slider_violates_invariant :
    trimInvariant ⟨0, 10, 10⟩ ∧
    ((0 : ℚ) ≤ 10 ∧ (10 : ℚ) ≤ (⟨0, 10, 10⟩ : EditorState).duration) ∧
    ¬ trimInvariant (trimStartSlider ⟨0, 10, 10⟩ 10) := by
  refine ⟨⟨by norm_num, by norm_num, by norm_num⟩, ⟨by norm_num, by norm_num⟩, ?_⟩
  intro h
  obtain ⟨-, hgap, -⟩ := h
  simp only [trimStartSlider] at hgap
  norm_num at hgap

/-- C5 amended: starting from any state satisfying the trim invariant, the
start and end number inputs preserve it for every typed value; the trimEnd
range slider guarantees only `trimStart ≤ trimEnd` (a zero-length trim is
possible), and the trimStart range slider stores the raw slider value with
no clamping at all, so slider moves can violate the invariant. -/
theorem trim_number_inputs_preserve_invariant (st : EditorState) (input : ℚ)
    (hinv : trimInvariant st) :
    trimInvariant (trimStartNumberInput st input) ∧
    trimInvariant (trimEndNumberInput st input) ∧
    (trimEndSlider st input).trimStart ≤ (trimEndSlider st input).trimEnd ∧
    (trimStartSlider st input).trimStart = input := by
  obtain ⟨h0, hgap, hdur⟩ := hinv
  refine ⟨⟨?_, ?_, ?_⟩, ⟨?_, ?_, ?_⟩, ?_, rfl⟩
  · exact le_max_left 0 _
  · show max 0 (min input (st.trimEnd - 1 / 10)) + 1 / 10 ≤ st.trimEnd
    have hx : max 0 (min input (st.trimEnd - 1 / 10)) ≤ st.trimEnd - 1 / 10 :=
      max_le (by linarith) (min_le_right _ _)
    linarith
  · exact hdur
  · exact h0
  · show st.trimStart + 1 / 10 ≤ min st.duration (max input (st.trimStart + 1 / 10))
    exact le_min (by linarith) (le_max_right _ _)
  · exact min_le_left _ _
  · exact le_max_right _ _

theorem trim_number_inputs_preserve_invariant_witness :
    trimInvariant (trimStartNumberInput ⟨0, 5, 10⟩ 3) ∧
    trimInvariant (trimEndNumberInput ⟨0, 5, 10⟩ 3) ∧
    (trimEndSlider ⟨0, 5, 10⟩ 3).trimStart ≤ (trimEndSlider ⟨0, 5, 10⟩ 3).trimEnd ∧
    (trimStartSlider ⟨0, 5, 10⟩ 3).trimStart = 3 :=
  trim_number_inputs_preserve_invariant ⟨0, 5, 10⟩ 3
    ⟨by norm_num, by norm_num, by norm_num⟩

/-- C10: the merge-clip candidates the editor offers are exactly the
history videos whose id differs from the main video's id and whose aspect
ratio equals the main video's; consequently every id actually added to the
merge queue through the selector (a non-empty value drawn from the
selector's options) is appended to the queue and references a clip of the
main clip's aspect-ratio class that is never the main clip itself. -/
theorem merge_candidates_compatible (video : GeneratedVideo)
    (allVideos : List GeneratedVideo) (q : List String) (fi : List ℕ)
    (selectedId : String) :
    (∀ v, v ∈ compatibleVideos video allVideos ↔
      (v ∈ allVideos ∧ v.id ≠ video.id ∧ v.aspectRatio = video.aspectRatio)) ∧
    (selectedId ∈ (compatibleVideos video allVideos).map GeneratedVideo.id →
      selectedId ≠ "" →
      handleAddToQueue q fi selectedId = (q ++ [selectedId], []) ∧
      ∃ v ∈ allVideos, v.id = selectedId ∧ v.id ≠ video.id ∧
        v.aspectRatio = video.aspectRatio) := by
  have hmem : ∀ v, v ∈ compatibleVideos video allVideos ↔
      (v ∈ allVideos ∧ v.id ≠ video.id ∧ v.aspectRatio = video.aspectRatio) := by
    intro v
    simp [compatibleVideos, List.mem_filter, bne_iff_ne, and_assoc]
  refine ⟨hmem, ?_⟩
  intro hsel hne
  obtain ⟨v, hv, hid⟩ := List.mem_map.mp hsel
  obtain ⟨hvall, hvne, hvasp⟩ := (hmem v).mp hv
  refine ⟨by simp [handleAddToQueue, hne], v, hvall, hid, hvne, hvasp⟩

theorem merge_candidates_compatible_witness :
    handleAddToQueue [] [] "b" = (["b"], []) ∧
    ∃ v ∈ [(⟨"b", "ub", "pb", "16:9"⟩ : GeneratedVideo)], v.id = "b" ∧
      v.id ≠ (⟨"a", "ua", "pa", "16:9"⟩ : GeneratedVideo).id ∧
      v.aspectRatio = (⟨"a", "ua", "pa", "16:9"⟩ : GeneratedVideo).aspectRatio :=
  (merge_candidates_compatible ⟨"a", "ua", "pa", "16:9"⟩
      [⟨"b", "ub", "pb", "16:9"⟩] [] [] "b").2 (by decide) (by decide)

/-- The merge loop over a queue whose ids all fail to resolve in the live
collection leaves the accumulator untouched and completes. -/
theorem mergeLoop_all_missing (allVideos : List GeneratedVideo) (env : ExportEnv)
    (q : List String) :
    ∀ (i : ℕ) (acc : LoopAcc),
      (∀ mid ∈ q, allVideos.find? (fun w => w.id == mid) = none) →
      mergeLoop allVideos env i q acc = LoopOut.ok acc := by
  induction q with
  | nil => intro i acc _; rfl
  | cons a q' ih =>
      intro i acc hq
      have ha := hq a (List.mem_cons_self a q')
      have hq' : ∀ mid ∈ q', allVideos.find? (fun w => w.id == mid) = none :=
        fun mid hm => hq mid (List.mem_cons_of_mem a hm)
      rw [mergeLoop, ha]
      exact ih (i + 1) acc hq'

/-- C3: a merge-queue entry whose id does not resolve in the live clip
collection is skipped without failing the job: the loop performs no fetch,
creates no blob, renders no segment, marks no failure, and continues with
the remaining entries exactly as if the entry were absent (with the loop
counter advanced past it); in particular a queue consisting only of
unresolved ids completes with the accumulator untouched. -/
theorem unresolved_entry_skipped (allVideos : List GeneratedVideo) (env : ExportEnv)
    (i : ℕ) (id : String) (rest : List String) (acc : LoopAcc)
    (hmiss : allVideos.find? (fun w => w.id == id) = none) :
    mergeLoop allVideos env i (id :: rest) acc = mergeLoop allVideos env (i + 1) rest acc ∧
    (∀ q : List String, (∀ mid ∈ q, allVideos.find? (fun w => w.id == mid) = none) →
      mergeLoop allVideos env i q acc = LoopOut.ok acc) :=
  ⟨by rw [mergeLoop, hmiss], fun q hq => mergeLoop_all_missing allVideos env q i acc hq⟩

theorem unresolved_entry_skipped_witness :
    mergeLoop [] ⟨2, 2, fun _ => true, fun _ => LoadOutcome.loaded, true, fun _ => true,
        fun _ => 3, [1200]⟩ 0 ["x"] ⟨[], [], []⟩ =
      mergeLoop [] ⟨2, 2, fun _ => true, fun _ => LoadOutcome.loaded, true, fun _ => true,
        fun _ => 3, [1200]⟩ 1 [] ⟨[], [], []⟩ ∧
    mergeLoop [] ⟨2, 2, fun _ => true, fun _ => LoadOutcome.loaded, true, fun _ => true,
        fun _ => 3, [1200]⟩ 0 ["x"] ⟨[], [], []⟩ = LoopOut.ok ⟨[], [], []⟩ := by
  have h := unresolved_entry_skipped []
    ⟨2, 2, fun _ => true, fun _ => LoadOutcome.loaded, true, fun _ => true,
      fun _ => 3, [1200]⟩ 0 "x" [] ⟨[], [], []⟩ rfl
  exact ⟨h.1, h.2 ["x"] (by intro mid hm; rfl)⟩

/-- C6: on every exit path of the export procedure, success or failure, all
per-job object URLs created for merge-queue clips are revoked and the audio
graph is released (the audio context is closed whenever one was created):
no merge-clip blob URL outlives the job. -/
theorem export_releases_resources (allVideos : List GeneratedVideo)
    (localVideoSrc : Option String) (trimStart trimEnd : ℚ) (textOverlay : String)
    (mergeQueue : List String) (env : ExportEnv) :
    (processVideo allVideos localVideoSrc trimStart trimEnd textOverlay
        mergeQueue env).blobsRevoked =
      (processVideo allVideos localVideoSrc trimStart trimEnd textOverlay
        mergeQueue env).blobsCreated ∧
    (processVideo allVideos localVideoSrc trimStart trimEnd textOverlay
        mergeQueue env).audioClosed =
      (processVideo allVideos localVideoSrc trimStart trimEnd textOverlay
        mergeQueue env).audioCreated := by
  cases localVideoSrc with
  | none => exact ⟨rfl, rfl⟩
  | some src =>
      simp only [processVideo]
      split
      · exact ⟨rfl, rfl⟩
      · split
        · split
          · exact ⟨rfl, rfl⟩
          · split
            · exact ⟨rfl, rfl⟩
            · exact ⟨rfl, rfl⟩
            · exact ⟨rfl, rfl⟩
        · exact ⟨rfl, rfl⟩

/-- Event trace of a loop outcome. -/
def loopEvents : LoopOut → List Ev
  | LoopOut.ok a => a.events
  | LoopOut.err a _ _ => a.events

/-- The merge loop only appends to the event trace. -/
theorem mergeLoop_events_extend (allVideos : List GeneratedVideo) (env : ExportEnv)
    (q : List String) :
    ∀ (i : ℕ) (acc : LoopAcc),
      ∃ ext, loopEvents (mergeLoop allVideos env i q acc) = acc.events ++ ext := by
  induction q with
  | nil => intro i acc; exact ⟨[], by simp [mergeLoop, loopEvents]⟩
  | cons a q' ih =>
      intro i acc
      rw [mergeLoop]
      cases hfind : allVideos.find? (fun w => w.id == a) with
      | none => exact ih (i + 1) acc
      | some v =>
          by_cases hfetch : env.fetchOk v.url
          · simp only [hfetch, if_true]
            cases hload : env.loadOutcome a with
            | loaded =>
                by_cases hplay : env.mergePlayOk a
                · simp only [hplay, if_true]
                  obtain ⟨ext, hext⟩ := ih (i + 1)
                    ⟨acc.blobs ++ ["blob:" ++ v.url],
                     (acc.played ++ [⟨"blob:" ++ v.url, 0, env.mergeDuration a, ""⟩]),
                     (acc.events ++ [Ev.fetchBlob i]) ++ [Ev.mergeSegPlayed i]⟩
                  exact ⟨[Ev.fetchBlob i] ++ [Ev.mergeSegPlayed i] ++ ext, by
                    rw [hext]; simp⟩
                · exact ⟨[Ev.fetchBlob i], by simp [hplay, loopEvents]⟩
            | mediaError => exact ⟨[Ev.fetchBlob i], by simp [loopEvents]⟩
            | timeout => exact ⟨[Ev.fetchBlob i], by simp [loopEvents]⟩
          · exact ⟨[], by simp [hfetch, loopEvents]⟩

/-- In a trace headed by `a`, every decomposition around an occurrence of
`b ≠ a` has `a` in the part before `b`. -/
theorem head_mem_of_decomp {a b : Ev} (hne : a ≠ b) (rest l1 l2 : List Ev)
    (h : a :: rest = l1 ++ b :: l2) : a ∈ l1 := by
  cases l1 with
  | nil =>
      simp only [List.nil_append] at h
      exact absurd (List.head_eq_of_cons_eq h) hne
  | cons x l1' =>
      simp only [List.cons_append] at h
      have hx : a = x := List.head_eq_of_cons_eq h
      rw [hx]
      exact List.mem_cons_self x l1'

/-- The export run's event trace is empty (the run aborted before the
canvas was touched) or starts with the initial frame draw. -/
theorem export_events_head (allVideos : List GeneratedVideo) (src : String)
    (trimStart trimEnd : ℚ) (textOverlay : String) (mergeQueue : List String)
    (env : ExportEnv) :
    (processVideo allVideos (some src) trimStart trimEnd textOverlay
        mergeQueue env).events = [] ∨
    ∃ rest, (processVideo allVideos (some src) trimStart trimEnd textOverlay
        mergeQueue env).events = Ev.drawInitialFrame :: rest := by
  by_cases hdims : forceEven env.videoWidth = 0 ∨ forceEven env.videoHeight = 0
  · exact Or.inl (by simp [processVideo, hdims, errorResult])
  · by_cases hmain : env.mainPlayOk
    · right
      obtain ⟨ext, hext⟩ := mergeLoop_events_extend allVideos env mergeQueue 0
        ⟨[], [⟨src, trimStart, trimEnd, textOverlay⟩],
         [Ev.drawInitialFrame, Ev.captureStream, Ev.recorderStart, Ev.mainSegPlayed]⟩
      cases hml : mergeLoop allVideos env 0 mergeQueue
        ⟨[], [⟨src, trimStart, trimEnd, textOverlay⟩],
         [Ev.drawInitialFrame, Ev.captureStream, Ev.recorderStart, Ev.mainSegPlayed]⟩ with
      | ok acc2 =>
          rw [hml] at hext
          simp only [loopEvents] at hext
          cases hfin : finishRecording env.chunks with
          | emptyOutput =>
              refine ⟨Ev.captureStream :: Ev.recorderStart :: Ev.mainSegPlayed :: ext, ?_⟩
              simp [processVideo, hdims, hmain, hml, hfin, errorResult, hext]
          | outputTooSmall s =>
              refine ⟨Ev.captureStream :: Ev.recorderStart :: Ev.mainSegPlayed :: ext, ?_⟩
              simp [processVideo, hdims, hmain, hml, hfin, errorResult, hext]
          | saved s =>
              refine ⟨Ev.captureStream :: Ev.recorderStart :: Ev.mainSegPlayed :: ext ++
                [Ev.recorderStop, Ev.saveInvoked], ?_⟩
              simp [processVideo, hdims, hmain, hml, hfin, hext]
      | err acc2 i msg =>
          rw [hml] at hext
          simp only [loopEvents] at hext
          refine ⟨Ev.captureStream :: Ev.recorderStart :: Ev.mainSegPlayed :: ext, ?_⟩
          simp [processVideo, hdims, hmain, hml, errorResult, hext]
    · right
      refine ⟨[Ev.captureStream, Ev.recorderStart], ?_⟩
      simp [processVideo, hdims, hmain, errorResult]

/-- C7: in every run of the export procedure, at least one frame is drawn
onto the processing canvas before the canvas capture stream is created and
before the recorder starts encoding: wherever the trace contains the
capture-stream creation or the recorder start, the initial frame draw
occurs earlier in the trace. -/
theorem frame_drawn_before_capture (allVideos : List GeneratedVideo)
    (localVideoSrc : Option String) (trimStart trimEnd : ℚ) (textOverlay : String)
    (mergeQueue : List String) (env : ExportEnv) :
    (∀ l1 l2, (processVideo allVideos localVideoSrc trimStart trimEnd textOverlay
        mergeQueue env).events = l1 ++ Ev.captureStream :: l2 →
      Ev.drawInitialFrame ∈ l1) ∧
    (∀ l1 l2, (processVideo allVideos localVideoSrc trimStart trimEnd textOverlay
        mergeQueue env).events = l1 ++ Ev.recorderStart :: l2 →
      Ev.drawInitialFrame ∈ l1) := by
  cases localVideoSrc with
  | none =>
      constructor <;> intro l1 l2 hd <;>
        · have : (processVideo allVideos none trimStart trimEnd textOverlay
              mergeQueue env).events = [] := rfl
          rw [this] at hd
          exact absurd hd.symm (by simp)
  | some src =>
      rcases export_events_head allVideos src trimStart trimEnd textOverlay
        mergeQueue env with h | ⟨rest, h⟩
      · constructor <;> intro l1 l2 hd <;>
          · rw [h] at hd
            exact absurd hd.symm (by simp)
      · constructor <;> intro l1 l2 hd <;> rw [h] at hd
        · exact head_mem_of_decomp (by decide) rest l1 l2 hd
        · exact head_mem_of_decomp (by decide) rest l1 l2 hd

theorem frame_drawn_before_capture_witness :
    Ev.drawInitialFrame ∈ ([Ev.drawInitialFrame] : List Ev) ∧
    Ev.drawInitialFrame ∈ ([Ev.drawInitialFrame, Ev.captureStream] : List Ev) :=
  ⟨(frame_drawn_before_capture [] (some "m") 0 4 "t" []
      ⟨2, 2, fun _ => true, fun _ => LoadOutcome.loaded, true, fun _ => true,
        fun _ => 3, [1200]⟩).1 [Ev.drawInitialFrame]
      [Ev.recorderStart, Ev.mainSegPlayed, Ev.recorderStop, Ev.saveInvoked] (by rfl),
   (frame_drawn_before_capture [] (some "m") 0 4 "t" []
      ⟨2, 2, fun _ => true, fun _ => LoadOutcome.loaded, true, fun _ => true,
        fun _ => 3, [1200]⟩).2 [Ev.drawInitialFrame, Ev.captureStream]
      [Ev.mainSegPlayed, Ev.recorderStop, Ev.saveInvoked] (by rfl)⟩

/-- If every entry before position `pre.length` passes (or is skipped) and
the entry there resolves but fails to load, the merge loop aborts with a
failure at exactly that index, and every merge segment rendered by the loop
has an index below the failing one. -/
theorem mergeLoop_abort (allVideos : List GeneratedVideo) (env : ExportEnv)
    (post : List String) (idF : String)
    (hfail : entryLoadFails allVideos env idF) :
    ∀ (pre : List String) (i0 : ℕ) (acc : LoopAcc),
      (∀ id ∈ pre, entryPasses allVideos env id) →
      ∃ acc2,
        mergeLoop allVideos env i0 (pre ++ idF :: post) acc =
          LoopOut.err acc2 (i0 + pre.length) (mergeFailMessage (i0 + pre.length)) ∧
        (∀ j, Ev.mergeSegPlayed j ∈ acc2.events →
          Ev.mergeSegPlayed j ∈ acc.events ∨ j < i0 + pre.length) := by
  intro pre
  induction pre with
  | nil =>
      intro i0 acc _
      obtain ⟨v, hfind, hbad⟩ := hfail
      simp only [List.nil_append, List.length_nil, Nat.add_zero]
      rw [mergeLoop, hfind]
      rcases hbad with hf | hl | hl
      · simp only [hf, Bool.false_eq_true, if_false]
        exact ⟨acc, rfl, fun j hj => Or.inl hj⟩
      all_goals
        by_cases hfok : env.fetchOk v.url
        · simp only [hfok, if_true, hl]
          refine ⟨_, rfl, fun j hj => Or.inl ?_⟩
          rcases List.mem_append.mp hj with hin | hin
          · exact hin
          · simp at hin
        · simp only [hfok, Bool.false_eq_true, if_false]
          exact ⟨acc, rfl, fun j hj => Or.inl hj⟩
  | cons a pre' ih =>
      intro i0 acc hpass
      have hpa := hpass a (List.mem_cons_self a pre')
      have hpass' : ∀ id ∈ pre', entryPasses allVideos env id :=
        fun id hm => hpass id (List.mem_cons_of_mem a hm)
      have harith : (i0 + 1) + pre'.length = i0 + (a :: pre').length := by
        simp [List.length_cons]
        omega
      simp only [List.cons_append]
      rw [mergeLoop]
      cases hfind : allVideos.find? (fun w => w.id == a) with
      | none =>
          obtain ⟨acc2, heq, hcond⟩ := ih (i0 + 1) acc hpass'
          rw [harith] at heq
          refine ⟨acc2, heq, fun j hj => ?_⟩
          rcases hcond j hj with hin | hlt
          · exact Or.inl hin
          · right
            simp only [List.length_cons]
            omega
      | some v =>
          obtain ⟨hf, hl, hp⟩ := hpa v hfind
          simp only [hf, if_true, hl, hp]
          obtain ⟨acc2, heq, hcond⟩ := ih (i0 + 1)
            ⟨acc.blobs ++ ["blob:" ++ v.url],
             acc.played ++ [⟨"blob:" ++ v.url, 0, env.mergeDuration a, ""⟩],
             (acc.events ++ [Ev.fetchBlob i0]) ++ [Ev.mergeSegPlayed i0]⟩ hpass'
          rw [harith] at heq
          refine ⟨acc2, heq, fun j hj => ?_⟩
          rcases hcond j hj with hin | hlt
          · rcases List.mem_append.mp hin with hin2 | hin2
            · rcases List.mem_append.mp hin2 with hin3 | hin3
              · exact Or.inl hin3
              · simp at hin3
            · have : j = i0 := by simpa using hin2
              right
              simp only [List.length_cons]
              omega
          · right
            simp only [List.length_cons]
            omega

/-- C1: if loading the `i`-th merge-queue clip fails (fetch failure, media
error, or load timeout) after all earlier queue entries passed or were
skipped, the export job aborts immediately: index `i` is recorded in the
failed-queue-indices set, no queue segment at or beyond index `i` is
rendered, the job terminates in the error state with the merge-failure
message for index `i`, and the save callback is never invoked on this run
(zero bytes committed as a final artifact). -/
theorem export_aborts_on_merge_load_failure (allVideos : List GeneratedVideo)
    (src : String) (trimStart trimEnd : ℚ) (textOverlay : String)
    (pre post : List String) (idF : String) (env : ExportEnv)
    (hw : forceEven env.videoWidth ≠ 0) (hh : forceEven env.videoHeight ≠ 0)
    (hmain : env.mainPlayOk = true)
    (hpre : ∀ id ∈ pre, entryPasses allVideos env id)
    (hfail : entryLoadFails allVideos env idF) :
    (processVideo allVideos (some src) trimStart trimEnd textOverlay
        (pre ++ idF :: post) env).status =
      ExportStatus.failed (mergeFailMessage pre.length) ∧
    (processVideo allVideos (some src) trimStart trimEnd textOverlay
        (pre ++ idF :: post) env).failedQueueIndices = [pre.length] ∧
    (processVideo allVideos (some src) trimStart trimEnd textOverlay
        (pre ++ idF :: post) env).savedUrls = [] ∧
    (∀ j, Ev.mergeSegPlayed j ∈ (processVideo allVideos (some src) trimStart trimEnd
        textOverlay (pre ++ idF :: post) env).events → j < pre.length) ∧
    (processVideo allVideos (some src) trimStart trimEnd textOverlay
        (pre ++ idF :: post) env).processing = false := by
  obtain ⟨acc2, heq, hcond⟩ := mergeLoop_abort allVideos env post idF hfail pre 0
    ⟨[], [⟨src, trimStart, trimEnd, textOverlay⟩],
     [Ev.drawInitialFrame, Ev.captureStream, Ev.recorderStart, Ev.mainSegPlayed]⟩ hpre
  have hdims : ¬ (forceEven env.videoWidth = 0 ∨ forceEven env.videoHeight = 0) := by
    simp [hw, hh]
  rw [Nat.zero_add] at heq
  simp only [processVideo, hdims, if_false, hmain, if_true, heq, errorResult]
  refine ⟨trivial, trivial, trivial, ?_, trivial⟩
  intro j hj
  rcases hcond j hj with hin | hlt
  · simp at hin
  · simpa using hlt

theorem export_aborts_on_merge_load_failure_witness :
    (processVideo [⟨"b", "ub", "pb", "16:9"⟩] (some "m") 0 4 "t" ["b"]
        ⟨2, 2, fun _ => false, fun _ => LoadOutcome.loaded, true, fun _ => true,
          fun _ => 3, [1200]⟩).failedQueueIndices = [0] ∧
    (processVideo [⟨"b", "ub", "pb", "16:9"⟩] (some "m") 0 4 "t" ["b"]
        ⟨2, 2, fun _ => false, fun _ => LoadOutcome.loaded, true, fun _ => true,
          fun _ => 3, [1200]⟩).savedUrls = [] := by
  have h := export_aborts_on_merge_load_failure [⟨"b", "ub", "pb", "16:9"⟩] "m" 0 4 "t"
    [] [] "b"
    ⟨2, 2, fun _ => false, fun _ => LoadOutcome.loaded, true, fun _ => true,
      fun _ => 3, [1200]⟩
    (by decide) (by decide) rfl
    (fun id hid => absurd hid (List.not_mem_nil id))
    ⟨⟨"b", "ub", "pb", "16:9"⟩, rfl, Or.inl rfl⟩
  exact ⟨h.2.1, h.2.2.1⟩

end Veo
